import Mathlib

/-!
Verification of the per-player decision-support engine of a riichi-mahjong
framework (`libriichi/src/state/agent_helper.rs`).

The data model and every operation below are shallow embeddings of the Rust
source.  Tiles are the 37 aka-aware identifiers (34 basic kinds plus the three
red fives 34/35/36); basic-kind count and flag arrays are functions out of
`Fin 34`, aka-aware result arrays are functions out of `Fin 37`.  The external
collaborators (the shanten primitive, the hand evaluator, the rank computation
and the expected-value search engine) are parameters, bundled in `Externals`.
Functions that can `panic!`/`assert!` in Rust are rendered as `Option`/`Except`
valued functions returning `none`/an error on the panicking path.
-/

set_option maxRecDepth 4000

/-- The 37-wide tile identifier domain: 0..33 basic kinds, 34 = red 5m,
35 = red 5p, 36 = red 5s. -/
abbrev TileId := Fin 37

/-- Embed a basic kind (0..33) into the 37-wide identifier domain. -/
def emb (i : Fin 34) : TileId := Fin.castLE (by omega) i

/-- `Tile::deaka`: map a tile identifier to its basic kind
(red 5m/5p/5s collapse to 5m = 4, 5p = 13, 5s = 22). -/
def tileDeaka (t : TileId) : Fin 34 :=
  if h : (t : Nat) < 34 then ⟨t, h⟩
  else if t = 34 then ⟨4, by omega⟩
  else if t = 35 then ⟨13, by omega⟩
  else ⟨22, by omega⟩

/-- `Tile::is_aka`. -/
def tileIsAka (t : TileId) : Bool := 34 ≤ (t : Nat)

/-- Modelled from the spec: the tile domain is external and carries an
adjacency (`next`) that cycles inside each suit (1m..9m, 1p..9p, 1s..9s),
inside the four winds and inside the three dragons, after de-aka mapping.
Used only to map a dora indicator to the tile it makes dora. -/
def tileNext (t : TileId) : Fin 34 :=
  let i := tileDeaka t
  if h : (i : Nat) < 9 then ⟨((i : Nat) + 1) % 9, by omega⟩
  else if h : (i : Nat) < 18 then ⟨9 + ((i : Nat) - 9 + 1) % 9, by omega⟩
  else if h : (i : Nat) < 27 then ⟨18 + ((i : Nat) - 18 + 1) % 9, by omega⟩
  else if h : (i : Nat) < 31 then ⟨27 + ((i : Nat) - 27 + 1) % 4, by omega⟩
  else ⟨31 + ((i : Nat) - 31 + 1) % 3, by omega⟩

/-- Modelled from the spec: the inverse adjacency (`prev`), mapping a tile to
the indicator that would make it dora. -/
def tilePrev (t : TileId) : Fin 34 :=
  let i := tileDeaka t
  if h : (i : Nat) < 9 then ⟨((i : Nat) + 8) % 9, by omega⟩
  else if h : (i : Nat) < 18 then ⟨9 + ((i : Nat) - 9 + 8) % 9, by omega⟩
  else if h : (i : Nat) < 27 then ⟨18 + ((i : Nat) - 18 + 8) % 9, by omega⟩
  else if h : (i : Nat) < 31 then ⟨27 + ((i : Nat) - 27 + 3) % 4, by omega⟩
  else ⟨31 + ((i : Nat) - 31 + 2) % 3, by omega⟩

/-- The west wind tile (`t!(W)`), identifier 29. -/
def tileW : TileId := 29

/-- Decrement a count array at one kind (`tehai[d] -= 1`; `Nat` subtraction
stands for the `u8` subtraction, which never underflows on the states the
theorems quantify over). -/
def decTile (th : Fin 34 → Nat) (d : Fin 34) : Fin 34 → Nat :=
  Function.update th d (th d - 1)

/-- Increment a count array at one kind (`tehai[t] += 1`). -/
def incTile (th : Fin 34 → Nat) (t : Fin 34) : Fin 34 → Nat :=
  Function.update th t (th t + 1)

/-- `ActionCandidate` (`last_cans`): legality flags of the current decision
point. -/
structure ActionCandidate where
  can_discard : Bool
  can_ron_agari : Bool
  can_tsumo_agari : Bool
  can_ryukyoku : Bool
  target_actor : Fin 4

/-- `ActionCandidate::can_agari`.  Modelled from the spec: a win is declarable
when either a ron or a tsumo is legal. -/
def ActionCandidate.can_agari (c : ActionCandidate) : Bool :=
  c.can_ron_agari || c.can_tsumo_agari

/-- The input record of the external hand evaluator `AgariCalculator`. -/
structure AgariCalculator where
  tehai : Fin 34 → Nat
  is_menzen : Bool
  chis : List Nat
  pons : List Nat
  minkans : List Nat
  ankans : List Nat
  bakaze : Nat
  jikaze : Nat
  winning_tile : Nat
  is_ron : Bool

/-- Modelled from the spec: the yaku-independent result of a completed hand,
with the ron value and the dealer/non-dealer tsumo payment amounts. -/
structure Point where
  ron : Int
  tsumo_oya : Int
  tsumo_ko : Int
deriving DecidableEq

/-- Modelled from the spec: total tsumo income — a dealer collects three equal
non-dealer payments, a non-dealer collects one dealer payment and two
non-dealer payments. -/
def Point.tsumo_total (p : Point) (is_oya : Bool) : Int :=
  if is_oya then p.tsumo_ko * 3 else p.tsumo_oya + p.tsumo_ko * 2

/-- The opaque result of the external hand evaluation; only its conversion to
a placement-aware `Point` is consumed here. -/
structure Agari where
  point : Bool → Point

/-- `InitState`: the hand snapshot handed to the external EV search engine. -/
structure InitState where
  tehai : Fin 34 → Nat
  akas_in_hand : Fin 3 → Bool
  tiles_seen : Fin 34 → Nat
  akas_seen : Fin 3 → Bool

/-- The configuration record of the external EV search engine. -/
structure SPCalculator where
  tehai_len_div3 : Nat
  is_menzen : Bool
  chis : List Nat
  pons : List Nat
  minkans : List Nat
  ankans : List Nat
  bakaze : Nat
  jikaze : Nat
  num_doras_in_fuuro : Nat
  prefer_riichi : Bool
  dora_indicators : List TileId
  calc_double_riichi : Bool
  calc_haitei : Bool
  sort_result : Bool
  maximize_win_prob : Bool
  calc_tegawari : Bool
  calc_shanten_down : Bool

/-- One entry of the EV table: a tile identifier plus the EV-bearing payload
produced by the external search engine (the payload is opaque here). -/
structure CandidateEntry where
  tile : TileId
  payload : Int
deriving DecidableEq

/-- `SinglePlayerTables`: the ordered per-discard EV table. -/
structure SinglePlayerTables where
  max_ev_table : List CandidateEntry
deriving DecidableEq

/-- The frozen per-player state view (`PlayerState`), restricted to the fields
this core reads. -/
structure PlayerState where
  tehai : Fin 34 → Nat
  tehai_len_div3 : Nat
  chis : List Nat
  pons : List Nat
  minkans : List Nat
  ankans : List Nat
  /-- `ankan_overview[0]`: the basic kinds of the player's concealed kans. -/
  ankan_overview : List (Fin 34)
  is_menzen : Bool
  bakaze : TileId
  jikaze : TileId
  kyoku : Nat
  honba : Nat
  kyotaku : Nat
  /-- Modelled from the spec: the player's absolute seat, used only to convert
  absolute actor ids to self-relative indices. -/
  player_id : Fin 4
  oya : Fin 4
  scores : Fin 4 → Int
  rank : Nat
  is_all_last : Bool
  riichi_accepted : Fin 4 → Bool
  riichi_declared : Fin 4 → Bool
  is_w_riichi : Bool
  at_ippatsu : Bool
  can_w_riichi : Bool
  at_furiten : Bool
  at_rinshan : Bool
  chankan_chance : Option TileId
  last_self_tsumo : Option TileId
  last_kawa_tile : Option TileId
  tiles_left : Nat
  tiles_seen : Fin 34 → Nat
  akas_seen : Fin 3 → Bool
  forbidden_tiles : Fin 34 → Bool
  discarded_tiles : Fin 34 → Bool
  waits : Fin 34 → Bool
  keep_shanten_discards : Fin 34 → Bool
  next_shanten_discards : Fin 34 → Bool
  has_next_shanten_discard : Bool
  shanten : Int
  dora_indicators : List TileId
  doras_owned : Nat
  dora_factor : Fin 34 → Nat
  akas_in_hand : Fin 3 → Bool
  last_cans : ActionCandidate

/-- The external collaborators, as pure function parameters:
`shanten::calc_all`, `PlayerState::get_rank`, `AgariCalculator::has_yaku`,
`AgariCalculator::agari`, `Point::yakuman` and `SPCalculator::calc`. -/
structure Externals where
  shantenCalc : (Fin 34 → Nat) → Nat → Int
  getRank : (Fin 4 → Int) → Nat
  hasYaku : AgariCalculator → Bool
  agariFn : AgariCalculator → Nat → Nat → Option Agari
  yakumanFn : Bool → Nat → Point
  spCalc : SPCalculator → InitState → Bool → Nat → Int → Option (List CandidateEntry)

/-- `PlayerState::rel`.  Modelled from the spec: seats are stored relative to
self (index 0 = self); an absolute actor id is converted by subtracting the
player's own seat modulo 4. -/
def PlayerState.rel (s : PlayerState) (actor : Fin 4) : Fin 4 :=
  ⟨((actor : Nat) + 4 - (s.player_id : Nat)) % 4, by omega⟩

/-! ## 4.1 Discard candidate generator -/

/-- First stage of the red-five normalization (`5m` block): if the basic 5m is
legal and the red 5m is in hand, mark the red variant legal and re-derive the
basic flag from the count. -/
def akaFix1 (tehai : Fin 34 → Nat) (akas : Fin 3 → Bool) (r : Fin 37 → Bool) :
    Fin 37 → Bool :=
  if r 4 = true ∧ akas 0 = true then
    Function.update (Function.update r 34 true) 4 (decide (1 < tehai 4))
  else r

/-- Second stage (`5p` block). -/
def akaFix2 (tehai : Fin 34 → Nat) (akas : Fin 3 → Bool) (r : Fin 37 → Bool) :
    Fin 37 → Bool :=
  if r 13 = true ∧ akas 1 = true then
    Function.update (Function.update r 35 true) 13 (decide (1 < tehai 13))
  else r

/-- Third stage (`5s` block). -/
def akaFix3 (tehai : Fin 34 → Nat) (akas : Fin 3 → Bool) (r : Fin 37 → Bool) :
    Fin 37 → Bool :=
  if r 22 = true ∧ akas 2 = true then
    Function.update (Function.update r 36 true) 22 (decide (1 < tehai 22))
  else r

/-- The three sequential red-five normalization blocks shared by
`discard_candidates_aka` and
`discard_candidates_with_unconditional_tenpai_aka`. -/
def akaFix (tehai : Fin 34 → Nat) (akas : Fin 3 → Bool) (r : Fin 37 → Bool) :
    Fin 37 → Bool :=
  akaFix3 tehai akas (akaFix2 tehai akas (akaFix1 tehai akas r))

/-- The per-kind legality loop of `discard_candidates_aka` (the state of `ret`
before red-five normalization): for each kind in hand, legality is the
shanten-direction table under a declared riichi and `!forbidden_tiles`
otherwise. -/
def discardBase (s : PlayerState) : Fin 37 → Bool :=
  fun j =>
    if h : (j : Nat) < 34 then
      if s.tehai ⟨j, h⟩ = 0 then false
      else if s.riichi_declared 0 = true then
        (if s.shanten = 1 then s.next_shanten_discards ⟨j, h⟩
         else s.keep_shanten_discards ⟨j, h⟩)
      else !s.forbidden_tiles ⟨j, h⟩
    else false

/-- `PlayerState::discard_candidates_aka`; `none` renders the
`assert!(can_discard)` and the `expect` on `last_self_tsumo`. -/
def PlayerState.discard_candidates_aka (s : PlayerState) :
    Option (Fin 37 → Bool) :=
  if s.last_cans.can_discard = false then none
  else if s.riichi_accepted 0 = true then
    match s.last_self_tsumo with
    | none => none
    | some t => some (Function.update (fun _ => false) t true)
  else some (akaFix s.tehai s.akas_in_hand (discardBase s))

/-- The copy of the 37-wide candidate set onto the 34 basic kinds
(`ret.copy_from_slice(&full[..34])`). -/
def collapseAka0 (full : Fin 37 → Bool) : Fin 34 → Bool := fun i => full (emb i)

/-- `ret[5m] |= full[5mr]`. -/
def collapseAka1 (full : Fin 37 → Bool) : Fin 34 → Bool :=
  Function.update (collapseAka0 full) 4 (collapseAka0 full 4 || full 34)

/-- `ret[5s] |= full[5sr]`. -/
def collapseAka2 (full : Fin 37 → Bool) : Fin 34 → Bool :=
  Function.update (collapseAka1 full) 22 (collapseAka1 full 22 || full 36)

/-- The collapse of a 37-wide candidate set onto basic kinds, in source order
5m, 5s, 5p (`ret[5p] |= full[5pr]` last). -/
def collapseAka (full : Fin 37 → Bool) : Fin 34 → Bool :=
  Function.update (collapseAka2 full) 13 (collapseAka2 full 13 || full 35)

/-- `PlayerState::discard_candidates`. -/
def PlayerState.discard_candidates (s : PlayerState) : Option (Fin 34 → Bool) :=
  s.discard_candidates_aka.map collapseAka

/-! ## 4.2 Unconditional-tenpai discard filter -/

/-- The inner hypothetical-draw loop of
`discard_candidates_with_unconditional_tenpai_aka`, for one fixed candidate
`discard` with `tehai3n1` the hand after removing it: scan the tile kinds in
order; skip the candidate itself and fully-held kinds; skip draws that do not
complete the hand; a completing draw that the player has discarded before sets
the flag to `false` and breaks; otherwise, a completing draw that is not fully
seen upgrades a still-false flag to `has_yaku`. -/
def scanLoop (E : Externals) (s : PlayerState) (d : Fin 34)
    (tehai3n1 : Fin 34 → Nat) : List (Fin 34) → Bool → Bool
  | [], acc => acc
  | t :: rest, acc =>
    if t = d ∨ tehai3n1 t = 4 then scanLoop E s d tehai3n1 rest acc
    else
      if -1 < E.shantenCalc (incTile tehai3n1 t) s.tehai_len_div3 then
        scanLoop E s d tehai3n1 rest acc
      else if s.discarded_tiles t = true then false
      else if s.tiles_seen t = 4 ∨ acc = true then scanLoop E s d tehai3n1 rest acc
      else
        scanLoop E s d tehai3n1 rest (E.hasYaku
          { tehai := incTile tehai3n1 t, is_menzen := s.is_menzen, chis := s.chis,
            pons := s.pons, minkans := s.minkans, ankans := s.ankans,
            bakaze := (s.bakaze : Nat), jikaze := (s.jikaze : Nat),
            winning_tile := (t : Nat), is_ron := true })

/-- The replace-and-test loop of
`discard_candidates_with_unconditional_tenpai_aka`: for each tenpai-advancing,
non-forbidden candidate, run the inner scan (each loop iteration writes only
its own `ret[discard]` cell, so the array-building loop is rendered
cell-wise). -/
def tenpaiScan (E : Externals) (s : PlayerState) : Fin 37 → Bool :=
  fun j =>
    if h : (j : Nat) < 34 then
      if (if s.shanten = 1 then s.next_shanten_discards ⟨j, h⟩
          else s.keep_shanten_discards ⟨j, h⟩) = true ∧
          s.forbidden_tiles ⟨j, h⟩ = false then
        scanLoop E s ⟨j, h⟩ (decTile s.tehai ⟨j, h⟩) (List.finRange 34) false
      else false
    else false

/-- `PlayerState::discard_candidates_with_unconditional_tenpai_aka`; `none`
renders the `assert!(can_discard)`. -/
def PlayerState.discard_candidates_with_unconditional_tenpai_aka
    (E : Externals) (s : PlayerState) : Option (Fin 37 → Bool) :=
  if s.last_cans.can_discard = false then none
  else if s.tiles_left = 0 ∨ 1 < s.shanten ∨
      (s.shanten = 1 ∧ s.has_next_shanten_discard = false) then
    some (fun _ => false)
  else
    match s.last_self_tsumo with
    | some t =>
      if s.waits (tileDeaka t) = true then some (fun _ => false)
      else if s.riichi_accepted 0 = true then
        if s.at_furiten = false then
          some (Function.update (fun _ => false) t true)
        else some (fun _ => false)
      else some (akaFix s.tehai s.akas_in_hand (tenpaiScan E s))
    | none =>
      if E.shantenCalc s.tehai s.tehai_len_div3 = -1 then some (fun _ => false)
      else some (akaFix s.tehai s.akas_in_hand (tenpaiScan E s))

/-- `PlayerState::discard_candidates_with_unconditional_tenpai`. -/
def PlayerState.discard_candidates_with_unconditional_tenpai
    (E : Externals) (s : PlayerState) : Option (Fin 34 → Bool) :=
  (s.discard_candidates_with_unconditional_tenpai_aka E).map collapseAka

/-! ## Pointwise characterization of the normalization stages -/

lemma akaFix1_apply (tehai : Fin 34 → Nat) (akas : Fin 3 → Bool)
    (r : Fin 37 → Bool) (j : Fin 37) :
    akaFix1 tehai akas r j =
      if j = 4 then r 4 && (!(akas 0) || decide (1 < tehai 4))
      else if j = 34 then r 34 || (r 4 && akas 0)
      else r j := by
  unfold akaFix1
  by_cases g : r 4 = true ∧ akas 0 = true
  · obtain ⟨h4, h0⟩ := g
    rw [if_pos ⟨h4, h0⟩, Function.update_apply, Function.update_apply]
    by_cases hj4 : j = 4
    · simp [hj4, h4, h0]
    · by_cases hj34 : j = 34
      · simp [hj34, h4, h0]
      · simp [hj4, hj34]
  · rw [if_neg g]
    have hfa : (r 4 && akas 0) = false := by
      cases hr : r 4
      · simp
      · cases ha : akas 0
        · simp
        · exact absurd ⟨hr, ha⟩ g
    by_cases hj4 : j = 4
    · cases hr : r 4
      · simp [hj4, hr]
      · have ha : akas 0 = false := by
          cases ha : akas 0
          · rfl
          · exact absurd ⟨hr, ha⟩ g
        simp [hj4, hr, ha]
    · by_cases hj34 : j = 34
      · simp [hj34, hfa]
      · simp [hj4, hj34]

lemma akaFix2_apply (tehai : Fin 34 → Nat) (akas : Fin 3 → Bool)
    (r : Fin 37 → Bool) (j : Fin 37) :
    akaFix2 tehai akas r j =
      if j = 13 then r 13 && (!(akas 1) || decide (1 < tehai 13))
      else if j = 35 then r 35 || (r 13 && akas 1)
      else r j := by
  unfold akaFix2
  by_cases g : r 13 = true ∧ akas 1 = true
  · obtain ⟨h4, h0⟩ := g
    rw [if_pos ⟨h4, h0⟩, Function.update_apply, Function.update_apply]
    by_cases hj4 : j = 13
    · simp [hj4, h4, h0]
    · by_cases hj34 : j = 35
      · simp [hj34, h4, h0]
      · simp [hj4, hj34]
  · rw [if_neg g]
    have hfa : (r 13 && akas 1) = false := by
      cases hr : r 13
      · simp
      · cases ha : akas 1
        · simp
        · exact absurd ⟨hr, ha⟩ g
    by_cases hj4 : j = 13
    · cases hr : r 13
      · simp [hj4, hr]
      · have ha : akas 1 = false := by
          cases ha : akas 1
          · rfl
          · exact absurd ⟨hr, ha⟩ g
        simp [hj4, hr, ha]
    · by_cases hj34 : j = 35
      · simp [hj34, hfa]
      · simp [hj4, hj34]

lemma akaFix3_apply (tehai : Fin 34 → Nat) (akas : Fin 3 → Bool)
    (r : Fin 37 → Bool) (j : Fin 37) :
    akaFix3 tehai akas r j =
      if j = 22 then r 22 && (!(akas 2) || decide (1 < tehai 22))
      else if j = 36 then r 36 || (r 22 && akas 2)
      else r j := by
  unfold akaFix3
  by_cases g : r 22 = true ∧ akas 2 = true
  · obtain ⟨h4, h0⟩ := g
    rw [if_pos ⟨h4, h0⟩, Function.update_apply, Function.update_apply]
    by_cases hj4 : j = 22
    · simp [hj4, h4, h0]
    · by_cases hj34 : j = 36
      · simp [hj34, h4, h0]
      · simp [hj4, hj34]
  · rw [if_neg g]
    have hfa : (r 22 && akas 2) = false := by
      cases hr : r 22
      · simp
      · cases ha : akas 2
        · simp
        · exact absurd ⟨hr, ha⟩ g
    by_cases hj4 : j = 22
    · cases hr : r 22
      · simp [hj4, hr]
      · have ha : akas 2 = false := by
          cases ha : akas 2
          · rfl
          · exact absurd ⟨hr, ha⟩ g
        simp [hj4, hr, ha]
    · by_cases hj34 : j = 36
      · simp [hj34, hfa]
      · simp [hj4, hj34]

/-- Full pointwise characterization of the red-five normalization. -/
lemma akaFix_apply (tehai : Fin 34 → Nat) (akas : Fin 3 → Bool)
    (r : Fin 37 → Bool) (j : Fin 37) :
    akaFix tehai akas r j =
      if j = 4 then r 4 && (!(akas 0) || decide (1 < tehai 4))
      else if j = 34 then r 34 || (r 4 && akas 0)
      else if j = 13 then r 13 && (!(akas 1) || decide (1 < tehai 13))
      else if j = 35 then r 35 || (r 13 && akas 1)
      else if j = 22 then r 22 && (!(akas 2) || decide (1 < tehai 22))
      else if j = 36 then r 36 || (r 22 && akas 2)
      else r j := by
  unfold akaFix
  rw [akaFix3_apply, akaFix2_apply, akaFix2_apply, akaFix2_apply,
    akaFix1_apply, akaFix1_apply, akaFix1_apply, akaFix1_apply, akaFix1_apply]
  by_cases h22 : j = 22
  · simp [h22]
  · by_cases h36 : j = 36
    · simp [h36]
    · by_cases h13 : j = 13
      · simp [h13]
      · by_cases h35 : j = 35
        · simp [h35]
        · by_cases h4 : j = 4
          · simp [h4]
          · by_cases h34 : j = 34
            · simp [h34]
            · simp [h22, h36, h13, h35, h4, h34]

lemma emb_val (i : Fin 34) : ((emb i : Fin 37) : Nat) = (i : Nat) := rfl

lemma emb_tileDeaka_of_lt (j : Fin 37) (h : (j : Nat) < 34) :
    emb (tileDeaka j) = j := by
  unfold tileDeaka
  rw [dif_pos h]
  exact Fin.ext rfl

lemma fin37_lt34 (j : Fin 37) (h1 : j ≠ 34) (h2 : j ≠ 35) (h3 : j ≠ 36) :
    (j : Nat) < 34 := by
  by_contra hlt
  push_neg at hlt
  have hj := j.isLt
  have hc : (j : Nat) = 34 ∨ (j : Nat) = 35 ∨ (j : Nat) = 36 := by omega
  rcases hc with h | h | h
  · exact h1 (Fin.ext (by rw [h]; rfl))
  · exact h2 (Fin.ext (by rw [h]; rfl))
  · exact h3 (Fin.ext (by rw [h]; rfl))

/-- If the pre-normalization set is false on the three red identifiers, any
identifier marked by the normalized set was marked at its basic kind before
normalization. -/
lemma akaFix_true_imp (tehai : Fin 34 → Nat) (akas : Fin 3 → Bool)
    (r : Fin 37 → Bool) (j : Fin 37)
    (h34 : r 34 = false) (h35 : r 35 = false) (h36 : r 36 = false)
    (hj : akaFix tehai akas r j = true) :
    r (emb (tileDeaka j)) = true := by
  rw [akaFix_apply] at hj
  by_cases e4 : j = 4
  · rw [if_pos e4, Bool.and_eq_true] at hj
    rw [show emb (tileDeaka j) = (4 : Fin 37) by rw [e4]; rfl]
    exact hj.1
  · rw [if_neg e4] at hj
    by_cases e34 : j = 34
    · rw [if_pos e34, h34, Bool.false_or, Bool.and_eq_true] at hj
      rw [show emb (tileDeaka j) = (4 : Fin 37) by rw [e34]; rfl]
      exact hj.1
    · rw [if_neg e34] at hj
      by_cases e13 : j = 13
      · rw [if_pos e13, Bool.and_eq_true] at hj
        rw [show emb (tileDeaka j) = (13 : Fin 37) by rw [e13]; rfl]
        exact hj.1
      · rw [if_neg e13] at hj
        by_cases e35 : j = 35
        · rw [if_pos e35, h35, Bool.false_or, Bool.and_eq_true] at hj
          rw [show emb (tileDeaka j) = (13 : Fin 37) by rw [e35]; rfl]
          exact hj.1
        · rw [if_neg e35] at hj
          by_cases e22 : j = 22
          · rw [if_pos e22, Bool.and_eq_true] at hj
            rw [show emb (tileDeaka j) = (22 : Fin 37) by rw [e22]; rfl]
            exact hj.1
          · rw [if_neg e22] at hj
            by_cases e36 : j = 36
            · rw [if_pos e36, h36, Bool.false_or, Bool.and_eq_true] at hj
              rw [show emb (tileDeaka j) = (22 : Fin 37) by rw [e36]; rfl]
              exact hj.1
            · rw [if_neg e36] at hj
              rw [emb_tileDeaka_of_lt j (fin37_lt34 j e34 e35 e36)]
              exact hj

/-- The red-five normalization is monotone in the underlying set. -/
lemma akaFix_mono_at (tehai : Fin 34 → Nat) (akas : Fin 3 → Bool)
    (r r2 : Fin 37 → Bool) (hsub : ∀ i, r i = true → r2 i = true) (j : Fin 37)
    (hj : akaFix tehai akas r j = true) : akaFix tehai akas r2 j = true := by
  rw [akaFix_apply] at hj ⊢
  by_cases e4 : j = 4
  · rw [if_pos e4] at hj ⊢
    rw [Bool.and_eq_true] at hj ⊢
    exact ⟨hsub _ hj.1, hj.2⟩
  · rw [if_neg e4] at hj ⊢
    by_cases e34 : j = 34
    · rw [if_pos e34] at hj ⊢
      rw [Bool.or_eq_true] at hj ⊢
      rcases hj with h | h
      · exact Or.inl (hsub _ h)
      · rw [Bool.and_eq_true] at h
        exact Or.inr (by rw [Bool.and_eq_true]; exact ⟨hsub _ h.1, h.2⟩)
    · rw [if_neg e34] at hj ⊢
      by_cases e13 : j = 13
      · rw [if_pos e13] at hj ⊢
        rw [Bool.and_eq_true] at hj ⊢
        exact ⟨hsub _ hj.1, hj.2⟩
      · rw [if_neg e13] at hj ⊢
        by_cases e35 : j = 35
        · rw [if_pos e35] at hj ⊢
          rw [Bool.or_eq_true] at hj ⊢
          rcases hj with h | h
          · exact Or.inl (hsub _ h)
          · rw [Bool.and_eq_true] at h
            exact Or.inr (by rw [Bool.and_eq_true]; exact ⟨hsub _ h.1, h.2⟩)
        · rw [if_neg e35] at hj ⊢
          by_cases e22 : j = 22
          · rw [if_pos e22] at hj ⊢
            rw [Bool.and_eq_true] at hj ⊢
            exact ⟨hsub _ hj.1, hj.2⟩
          · rw [if_neg e22] at hj ⊢
            by_cases e36 : j = 36
            · rw [if_pos e36] at hj ⊢
              rw [Bool.or_eq_true] at hj ⊢
              rcases hj with h | h
              · exact Or.inl (hsub _ h)
              · rw [Bool.and_eq_true] at h
                exact Or.inr (by rw [Bool.and_eq_true]; exact ⟨hsub _ h.1, h.2⟩)
            · rw [if_neg e36] at hj ⊢
              exact hsub _ hj

/-- Pointwise characterization of the collapse onto basic kinds. -/
lemma collapseAka_apply (full : Fin 37 → Bool) (i : Fin 34) :
    collapseAka full i =
      (full (emb i) ||
        (if i = 4 then full 34 else if i = 22 then full 36
         else if i = 13 then full 35 else false)) := by
  unfold collapseAka collapseAka2 collapseAka1 collapseAka0
  by_cases h13 : i = 13
  · subst h13
    rw [Function.update_apply, if_pos rfl, Function.update_apply,
      if_neg (by decide : ¬(13 : Fin 34) = 22), Function.update_apply,
      if_neg (by decide : ¬(13 : Fin 34) = 4),
      if_neg (by decide : ¬(13 : Fin 34) = 4),
      if_neg (by decide : ¬(13 : Fin 34) = 22), if_pos rfl]
  · rw [Function.update_apply, if_neg h13]
    by_cases h22 : i = 22
    · subst h22
      rw [Function.update_apply, if_pos rfl, Function.update_apply,
        if_neg (by decide : ¬(22 : Fin 34) = 4),
        if_neg (by decide : ¬(22 : Fin 34) = 4), if_pos rfl]
    · rw [Function.update_apply, if_neg h22]
      by_cases h4 : i = 4
      · subst h4
        rw [Function.update_apply, if_pos rfl, if_pos rfl]
      · rw [Function.update_apply, if_neg h4, if_neg h4, if_neg h22,
          if_neg h13, Bool.or_false]

/-- The furiten break: if the scan list contains a reachable completing draw
that the player has already discarded, the inner loop ends with `false`, no
matter what eligibility was accumulated before — the furiten check precedes
both the full-visibility skip and the already-eligible skip. -/
lemma scanLoop_break (E : Externals) (s : PlayerState) (d : Fin 34)
    (th1 : Fin 34 → Nat) (k : Fin 34) (hkd : k ≠ d) (hfull : th1 k ≠ 4)
    (hsh : E.shantenCalc (incTile th1 k) s.tehai_len_div3 ≤ -1)
    (hdis : s.discarded_tiles k = true) :
    ∀ (l : List (Fin 34)) (acc : Bool), k ∈ l →
      scanLoop E s d th1 l acc = false := by
  intro l
  induction l with
  | nil =>
    intro acc h
    simp at h
  | cons t rest ih =>
    intro acc hmem
    rw [scanLoop]
    by_cases hskip : t = d ∨ th1 t = 4
    · rw [if_pos hskip]
      rcases List.mem_cons.mp hmem with he | hm
      · subst he
        rcases hskip with h | h
        · exact absurd h hkd
        · exact absurd h hfull
      · exact ih acc hm
    · rw [if_neg hskip]
      by_cases hsh2 : -1 < E.shantenCalc (incTile th1 t) s.tehai_len_div3
      · rw [if_pos hsh2]
        rcases List.mem_cons.mp hmem with he | hm
        · subst he
          omega
        · exact ih acc hm
      · rw [if_neg hsh2]
        by_cases hdt : s.discarded_tiles t = true
        · rw [if_pos hdt]
        · rw [if_neg hdt]
          rcases List.mem_cons.mp hmem with he | hm
          · subst he
            exact absurd hdis hdt
          · by_cases hseen : s.tiles_seen t = 4 ∨ acc = true
            · rw [if_pos hseen]
              exact ih acc hm
            · rw [if_neg hseen]
              exact ih _ hm

/-- Evaluation of the replace-and-test map at an embedded basic kind. -/
lemma tenpaiScan_emb (E : Externals) (s : PlayerState) (d : Fin 34) :
    tenpaiScan E s (emb d) =
      if (if s.shanten = 1 then s.next_shanten_discards d
          else s.keep_shanten_discards d) = true ∧
          s.forbidden_tiles d = false then
        scanLoop E s d (decTile s.tehai d) (List.finRange 34) false
      else false := by
  simp only [tenpaiScan]
  rw [dif_pos (show ((emb d : Fin 37) : Nat) < 34 from d.isLt)]
  simp only [emb_val, Fin.eta]

lemma tenpaiScan_red (E : Externals) (s : PlayerState) (j : Fin 37)
    (h : ¬(j : Nat) < 34) : tenpaiScan E s j = false := by
  simp only [tenpaiScan]
  rw [dif_neg h]

/-- The scan-plus-normalization part of 4.2 never marks an identifier whose
basic kind admits a reachable, already-discarded completing draw. -/
lemma scanBranch_false (E : Externals) (s : PlayerState) (k : Fin 34)
    (tid : TileId)
    (hk : s.discarded_tiles k = true) (hne : k ≠ tileDeaka tid)
    (hfull : decTile s.tehai (tileDeaka tid) k ≠ 4)
    (hcomp : E.shantenCalc (incTile (decTile s.tehai (tileDeaka tid)) k)
      s.tehai_len_div3 ≤ -1) :
    akaFix s.tehai s.akas_in_hand (tenpaiScan E s) tid = false := by
  have hscan : tenpaiScan E s (emb (tileDeaka tid)) = false := by
    rw [tenpaiScan_emb]
    by_cases hg : (if s.shanten = 1 then s.next_shanten_discards (tileDeaka tid)
        else s.keep_shanten_discards (tileDeaka tid)) = true ∧
        s.forbidden_tiles (tileDeaka tid) = false
    · rw [if_pos hg]
      exact scanLoop_break E s (tileDeaka tid) (decTile s.tehai (tileDeaka tid))
        k hne hfull hcomp hk (List.finRange 34) false (List.mem_finRange k)
    · rw [if_neg hg]
  cases h : akaFix s.tehai s.akas_in_hand (tenpaiScan E s) tid
  · rfl
  · exfalso
    have h2 := akaFix_true_imp s.tehai s.akas_in_hand (tenpaiScan E s) tid
      (tenpaiScan_red E s 34 (by decide))
      (tenpaiScan_red E s 35 (by decide))
      (tenpaiScan_red E s 36 (by decide)) h
    rw [hscan] at h2
    exact Bool.noConfusion h2

/-- C1: at a discard point, if a tile kind is in the player's own
`discarded_tiles` and some hypothetical draw of that kind is reachable in the
scan (distinct from the candidate, not a fifth copy) and completes the hand
left by the candidate discard, then
`discard_candidates_with_unconditional_tenpai_aka` leaves that candidate
marked `false` — in particular a furiten draw found later in the scan retracts
any eligibility granted by an earlier draw, because the furiten break precedes
the already-eligible skip (`scanLoop_break` needs no assumption on the
accumulated flag).  The two invariant hypotheses `hwaits`/`hfur` are the
spec-stated soundness of the externally maintained `waits` and `at_furiten`
caches, needed only for the accepted-riichi early return. -/
theorem claim_C1_furiten_monotonicity (E : Externals) (s : PlayerState)
    (r : Fin 37 → Bool)
    (hr : s.discard_candidates_with_unconditional_tenpai_aka E = some r)
    (hwaits : ∀ t : TileId, s.last_self_tsumo = some t →
      s.riichi_accepted 0 = true → ∀ m : Fin 34,
      E.shantenCalc (incTile (decTile s.tehai (tileDeaka t)) m)
        s.tehai_len_div3 ≤ -1 → s.waits m = true)
    (hfur : ∀ m : Fin 34, s.discarded_tiles m = true → s.waits m = true →
      s.at_furiten = true)
    (k : Fin 34) (tid : TileId)
    (hk : s.discarded_tiles k = true)
    (hne : k ≠ tileDeaka tid)
    (hfull : decTile s.tehai (tileDeaka tid) k ≠ 4)
    (hcomp : E.shantenCalc (incTile (decTile s.tehai (tileDeaka tid)) k)
      s.tehai_len_div3 ≤ -1) :
    r tid = false := by
  unfold PlayerState.discard_candidates_with_unconditional_tenpai_aka at hr
  split at hr
  · exact Option.noConfusion hr
  · split at hr
    · injection hr with h
      rw [← h]
    · split at hr
      next t heq =>
        split at hr
        · injection hr with h
          rw [← h]
        next hw =>
          split at hr
          next hri =>
            split at hr
            next hfu =>
              injection hr with h
              rw [← h]
              by_cases htid : tid = t
              · exfalso
                subst htid
                have hwk := hwaits tid heq hri k hcomp
                have hft := hfur k hk hwk
                rw [hft] at hfu
                exact Bool.noConfusion hfu
              · rw [Function.update_apply, if_neg htid]
            next hfu =>
              injection hr with h
              rw [← h]
          next hri =>
            injection hr with h
            rw [← h]
            exact scanBranch_false E s k tid hk hne hfull hcomp
      next heq =>
        split at hr
        · injection hr with h
          rw [← h]
        · injection hr with h
          rw [← h]
          exact scanBranch_false E s k tid hk hne hfull hcomp

/-- Modelled from the spec: an instantiation of the external rank computation
for concrete checks — the player's rank is the number of seats with a strictly
higher score (no ties occur in the concrete tables used below). -/
def specGetRank (scores : Fin 4 → Int) : Nat :=
  ((List.finRange 4).filter (fun j => scores 0 < scores j)).length

/-- A default instantiation of the external collaborators for concrete
checks. -/
def extDefault : Externals where
  shantenCalc := fun _ _ => 8
  getRank := specGetRank
  hasYaku := fun _ => true
  agariFn := fun _ _ _ => none
  yakumanFn := fun _ _ => ⟨0, 0, 0⟩
  spCalc := fun _ _ _ _ _ => none

/-- A default concrete state for instantiating the theorems. -/
def stateDefault : PlayerState where
  tehai := fun _ => 0
  tehai_len_div3 := 4
  chis := []
  pons := []
  minkans := []
  ankans := []
  ankan_overview := []
  is_menzen := true
  bakaze := 27
  jikaze := 27
  kyoku := 0
  honba := 0
  kyotaku := 0
  player_id := 0
  oya := 1
  scores := fun _ => 25000
  rank := 0
  is_all_last := false
  riichi_accepted := fun _ => false
  riichi_declared := fun _ => false
  is_w_riichi := false
  at_ippatsu := false
  can_w_riichi := false
  at_furiten := false
  at_rinshan := false
  chankan_chance := none
  last_self_tsumo := none
  last_kawa_tile := none
  tiles_left := 30
  tiles_seen := fun _ => 0
  akas_seen := fun _ => false
  forbidden_tiles := fun _ => false
  discarded_tiles := fun _ => false
  waits := fun _ => false
  keep_shanten_discards := fun _ => false
  next_shanten_discards := fun _ => false
  has_next_shanten_discard := false
  shanten := 8
  dora_indicators := []
  doras_owned := 0
  dora_factor := fun _ => 0
  akas_in_hand := fun _ => false
  last_cans :=
    { can_discard := false, can_ron_agari := false, can_tsumo_agari := false,
      can_ryukyoku := false, target_actor := 0 }

/-- Concrete state for the C1 witness: hand 1m + 6m, discarding 1m reaches
tenpai on 6m, but 6m is already in the player's own discards. -/
def c1State : PlayerState :=
  { stateDefault with
    tehai := fun i => if i = 0 then 1 else if i = 5 then 1 else 0
    shanten := 1
    has_next_shanten_discard := true
    next_shanten_discards := fun i => decide (i = 0)
    discarded_tiles := fun i => decide (i = 5)
    last_cans :=
      { can_discard := true, can_ron_agari := false, can_tsumo_agari := false,
        can_ryukyoku := false, target_actor := 0 } }

/-- Externals for the C1 witness: the hand is complete exactly when it holds
two copies of kind 5 (6m). -/
def c1Ext : Externals :=
  { extDefault with shantenCalc := fun th _ => if th 5 = 2 then -1 else 3 }

/-- The value of the 4.2 filter at the C1 witness state. -/
def c1r : Fin 37 → Bool :=
  (PlayerState.discard_candidates_with_unconditional_tenpai_aka c1Ext
    c1State).getD (fun _ => false)

theorem claim_C1_furiten_monotonicity_witness : c1r 0 = false :=
  claim_C1_furiten_monotonicity c1Ext c1State c1r rfl (by decide)
    (by decide) 5 0 (by decide) (by decide) (by decide) (by decide)

/-- Every candidate examined by the 4.2 replace-and-test loop is legal per the
4.1 per-kind loop, provided the cached shanten-direction tables only name
kinds actually held (the spec's data-model invariant for the externally
maintained caches). -/
lemma tenpaiScan_subset_base (E : Externals) (s : PlayerState)
    (hwf : ∀ i : Fin 34, (s.keep_shanten_discards i = true ∨
      s.next_shanten_discards i = true) → 0 < s.tehai i) :
    ∀ j, tenpaiScan E s j = true → discardBase s j = true := by
  intro j hj
  unfold tenpaiScan at hj
  unfold discardBase
  by_cases h : (j : Nat) < 34
  · rw [dif_pos h] at hj
    rw [dif_pos h]
    by_cases hg : (if s.shanten = 1 then s.next_shanten_discards ⟨j, h⟩
        else s.keep_shanten_discards ⟨j, h⟩) = true ∧
        s.forbidden_tiles ⟨j, h⟩ = false
    · obtain ⟨hten, hforb⟩ := hg
      have hpos : 0 < s.tehai ⟨j, h⟩ := by
        apply hwf
        by_cases hsh : s.shanten = 1
        · rw [if_pos hsh] at hten
          exact Or.inr hten
        · rw [if_neg hsh] at hten
          exact Or.inl hten
      rw [if_neg (by omega : ¬s.tehai ⟨j, h⟩ = 0)]
      by_cases hrd : s.riichi_declared 0 = true
      · rw [if_pos hrd]
        exact hten
      · rw [if_neg hrd, hforb]
        rfl
    · rw [if_neg hg] at hj
      exact absurd hj (by simp)
  · rw [dif_neg h] at hj
    exact absurd hj (by simp)

/-- Aka-aware subset: everything marked by the 4.2 filter is a legal discard
per 4.1. -/
lemma dcwut_subset_aka (E : Externals) (s : PlayerState)
    (hwf : ∀ i : Fin 34, (s.keep_shanten_discards i = true ∨
      s.next_shanten_discards i = true) → 0 < s.tehai i)
    (c u : Fin 37 → Bool)
    (hc : s.discard_candidates_aka = some c)
    (hu : s.discard_candidates_with_unconditional_tenpai_aka E = some u) :
    ∀ j, u j = true → c j = true := by
  intro j hj
  unfold PlayerState.discard_candidates_with_unconditional_tenpai_aka at hu
  unfold PlayerState.discard_candidates_aka at hc
  split at hu
  · exact Option.noConfusion hu
  next hcd =>
    rw [if_neg hcd] at hc
    split at hu
    next hearly =>
      injection hu with hu2
      rw [← hu2] at hj
      exact absurd hj (by simp)
    next hearly =>
      split at hu
      next t heq =>
        split at hu
        next hw =>
          injection hu with hu2
          rw [← hu2] at hj
          exact absurd hj (by simp)
        next hw =>
          split at hu
          next hri =>
            split at hu
            next hfu =>
              injection hu with hu2
              rw [← hu2] at hj
              rw [Function.update_apply] at hj
              have hjt : j = t := by
                by_cases hh : j = t
                · exact hh
                · rw [if_neg hh] at hj
                  exact absurd hj (by simp)
              rw [if_pos hri] at hc
              split at hc
              next heq2 =>
                rw [heq] at heq2
                exact Option.noConfusion heq2
              next t2 heq2 =>
                have ht2 : t = t2 := by
                  rw [heq] at heq2
                  exact Option.some.inj heq2
                injection hc with hc2
                rw [← hc2, hjt, ht2, Function.update_apply, if_pos rfl]
            next hfu =>
              injection hu with hu2
              rw [← hu2] at hj
              exact absurd hj (by simp)
          next hri =>
            injection hu with hu2
            rw [← hu2] at hj
            rw [if_neg hri] at hc
            injection hc with hc2
            rw [← hc2]
            exact akaFix_mono_at s.tehai s.akas_in_hand _ _
              (tenpaiScan_subset_base E s hwf) j hj
      next heq =>
        split at hu
        next hcalc =>
          injection hu with hu2
          rw [← hu2] at hj
          exact absurd hj (by simp)
        next hcalc =>
          injection hu with hu2
          rw [← hu2] at hj
          by_cases hri : s.riichi_accepted 0 = true
          · rw [if_pos hri] at hc
            split at hc
            next heq2 => exact Option.noConfusion hc
            next t2 heq2 =>
              rw [heq] at heq2
              exact Option.noConfusion heq2
          · rw [if_neg hri] at hc
            injection hc with hc2
            rw [← hc2]
            exact akaFix_mono_at s.tehai s.akas_in_hand _ _
              (tenpaiScan_subset_base E s hwf) j hj

/-- C2: at a discard point, the unconditional-tenpai discard set is a subset
of the legal discard set, both for the 37-wide aka-aware variants and for the
34-wide collapsed variants; `hwf` is the spec's invariant that the cached
shanten-direction tables only name kinds present in hand. -/
theorem claim_C2_tenpai_subset_of_candidates (E : Externals) (s : PlayerState)
    (hwf : ∀ i : Fin 34, (s.keep_shanten_discards i = true ∨
      s.next_shanten_discards i = true) → 0 < s.tehai i)
    (c u : Fin 37 → Bool) (c34 u34 : Fin 34 → Bool)
    (hc : s.discard_candidates_aka = some c)
    (hu : s.discard_candidates_with_unconditional_tenpai_aka E = some u)
    (hc34 : s.discard_candidates = some c34)
    (hu34 : s.discard_candidates_with_unconditional_tenpai E = some u34)
    (j : TileId) (i : Fin 34)
    (hju : u j = true) (hiu : u34 i = true) :
    c j = true ∧ c34 i = true := by
  have hsub := dcwut_subset_aka E s hwf c u hc hu
  refine ⟨hsub j hju, ?_⟩
  unfold PlayerState.discard_candidates at hc34
  unfold PlayerState.discard_candidates_with_unconditional_tenpai at hu34
  rw [hc] at hc34
  rw [hu] at hu34
  injection hc34 with hc2
  injection hu34 with hu2
  rw [← hc2]
  rw [← hu2] at hiu
  rw [collapseAka_apply] at hiu ⊢
  rw [Bool.or_eq_true] at hiu ⊢
  rcases hiu with h | h
  · exact Or.inl (hsub _ h)
  · right
    by_cases h4 : i = 4
    · rw [if_pos h4] at h ⊢
      exact hsub _ h
    · rw [if_neg h4] at h ⊢
      by_cases h22 : i = 22
      · rw [if_pos h22] at h ⊢
        exact hsub _ h
      · rw [if_neg h22] at h ⊢
        by_cases h13 : i = 13
        · rw [if_pos h13] at h ⊢
          exact hsub _ h
        · rw [if_neg h13] at h
          exact absurd h (by simp)

/-- Concrete state for the C2 witness: tenpai hand 1m + 6m at a discard point,
where discarding 1m waits on 6m with a yaku. -/
def c2State : PlayerState :=
  { stateDefault with
    tehai := fun i => if i = 0 then 1 else if i = 5 then 1 else 0
    shanten := 0
    keep_shanten_discards := fun i => decide (i = 0)
    last_cans :=
      { can_discard := true, can_ron_agari := false, can_tsumo_agari := false,
        can_ryukyoku := false, target_actor := 0 } }

/-- Externals for the C2 witness. -/
def c2Ext : Externals :=
  { extDefault with shantenCalc := fun th _ => if th 5 = 2 then -1 else 0 }

/-- The four candidate sets at the C2 witness state. -/
def c2c : Fin 37 → Bool :=
  (c2State.discard_candidates_aka).getD (fun _ => false)

def c2u : Fin 37 → Bool :=
  (c2State.discard_candidates_with_unconditional_tenpai_aka c2Ext).getD
    (fun _ => false)

def c2c34 : Fin 34 → Bool :=
  (c2State.discard_candidates).getD (fun _ => false)

def c2u34 : Fin 34 → Bool :=
  (c2State.discard_candidates_with_unconditional_tenpai c2Ext).getD
    (fun _ => false)

theorem claim_C2_tenpai_subset_of_candidates_witness :
    c2c 0 = true ∧ c2c34 0 = true :=
  claim_C2_tenpai_subset_of_candidates c2Ext c2State (by decide)
    c2c c2u c2c34 c2u34 rfl rfl rfl rfl 0 0 (by decide) (by decide)

lemma tileDeaka_emb (i : Fin 34) : tileDeaka (emb i) = i := by
  unfold tileDeaka
  rw [dif_pos (show ((emb i : Fin 37) : Nat) < 34 from i.isLt)]
  exact Fin.ext rfl

lemma fin37_red_cases (j : Fin 37) (h : ¬(j : Nat) < 34) :
    j = 34 ∨ j = 35 ∨ j = 36 := by
  have hj := j.isLt
  have hc : (j : Nat) = 34 ∨ (j : Nat) = 35 ∨ (j : Nat) = 36 := by omega
  rcases hc with h | h | h
  · exact Or.inl (Fin.ext (by rw [h]; rfl))
  · exact Or.inr (Or.inl (Fin.ext (by rw [h]; rfl)))
  · exact Or.inr (Or.inr (Fin.ext (by rw [h]; rfl)))

/-- C3: with an accepted riichi at a discard point, `discard_candidates_aka`
marks exactly one identifier — the exact (red-five preserving) identifier of
the last self-drawn tile — and `discard_candidates` marks exactly its basic
kind. -/
theorem claim_C3_riichi_singleton (s : PlayerState)
    (caka : Fin 37 → Bool) (c34 : Fin 34 → Bool) (t : TileId)
    (hri : s.riichi_accepted 0 = true)
    (ht : s.last_self_tsumo = some t)
    (haka : s.discard_candidates_aka = some caka)
    (h34 : s.discard_candidates = some c34)
    (j : TileId) (i : Fin 34) :
    (caka j = true ↔ j = t) ∧ (c34 i = true ↔ i = tileDeaka t) := by
  unfold PlayerState.discard_candidates at h34
  rw [haka] at h34
  injection h34 with h34e
  unfold PlayerState.discard_candidates_aka at haka
  by_cases hcd : s.last_cans.can_discard = false
  · rw [if_pos hcd] at haka
    exact Option.noConfusion haka
  · rw [if_neg hcd, if_pos hri, ht] at haka
    injection haka with hcaka
    constructor
    · rw [← hcaka, Function.update_apply]
      constructor
      · intro hjj
        by_cases hh : j = t
        · exact hh
        · rw [if_neg hh] at hjj
          exact absurd hjj (by simp)
      · intro hjj
        rw [if_pos hjj]
    · rw [← h34e, ← hcaka, collapseAka_apply, Bool.or_eq_true]
      constructor
      · intro hor
        rcases hor with hl | hr2
        · rw [Function.update_apply] at hl
          by_cases hh : emb i = t
          · rw [← hh, tileDeaka_emb]
          · rw [if_neg hh] at hl
            exact absurd hl (by simp)
        · by_cases h4 : i = 4
          · rw [if_pos h4, Function.update_apply] at hr2
            by_cases hh : (34 : Fin 37) = t
            · rw [← hh, h4]
              decide
            · rw [if_neg hh] at hr2
              exact absurd hr2 (by simp)
          · rw [if_neg h4] at hr2
            by_cases h22 : i = 22
            · rw [if_pos h22, Function.update_apply] at hr2
              by_cases hh : (36 : Fin 37) = t
              · rw [← hh, h22]
                decide
              · rw [if_neg hh] at hr2
                exact absurd hr2 (by simp)
            · rw [if_neg h22] at hr2
              by_cases h13 : i = 13
              · rw [if_pos h13, Function.update_apply] at hr2
                by_cases hh : (35 : Fin 37) = t
                · rw [← hh, h13]
                  decide
                · rw [if_neg hh] at hr2
                  exact absurd hr2 (by simp)
              · rw [if_neg h13] at hr2
                exact absurd hr2 (by simp)
      · intro hid
        by_cases hlt : (t : Nat) < 34
        · left
          rw [Function.update_apply,
            if_pos (by rw [hid]; exact emb_tileDeaka_of_lt t hlt)]
        · right
          rcases fin37_red_cases t hlt with h | h | h
          · subst h
            rw [if_pos (show i = 4 by rw [hid]; decide),
              Function.update_apply, if_pos rfl]
          · subst h
            rw [if_neg (show ¬i = 4 by rw [hid]; decide),
              if_neg (show ¬i = 22 by rw [hid]; decide),
              if_pos (show i = 13 by rw [hid]; decide),
              Function.update_apply, if_pos rfl]
          · subst h
            rw [if_neg (show ¬i = 4 by rw [hid]; decide),
              if_pos (show i = 22 by rw [hid]; decide),
              Function.update_apply, if_pos rfl]

/-- Concrete state for the C3 witness: accepted riichi, just drew the red
5m. -/
def c3State : PlayerState :=
  { stateDefault with
    tehai := fun i => if i = 4 then 1 else 0
    riichi_accepted := fun i => decide (i = 0)
    last_self_tsumo := some 34
    last_cans :=
      { can_discard := true, can_ron_agari := false, can_tsumo_agari := false,
        can_ryukyoku := false, target_actor := 0 } }

def c3caka : Fin 37 → Bool :=
  (c3State.discard_candidates_aka).getD (fun _ => false)

def c3c34 : Fin 34 → Bool :=
  (c3State.discard_candidates).getD (fun _ => false)

theorem claim_C3_riichi_singleton_witness :
    (c3caka 34 = true ↔ (34 : Fin 37) = 34) ∧
      (c3c34 4 = true ↔ (4 : Fin 34) = tileDeaka 34) :=
  claim_C3_riichi_singleton c3State c3caka c3c34 34 (by decide) rfl rfl rfl 34 4

lemma discardBase_red (s : PlayerState) (j : Fin 37) (h : ¬(j : Nat) < 34) :
    discardBase s j = false := by
  unfold discardBase
  rw [dif_neg h]

/-- C4: at a discard point without an accepted riichi, if a basic five kind is
legal (per the pre-normalization loop `discardBase`) and the matching red five
is in hand, then `discard_candidates_aka` marks the red variant legal and
marks the basic variant legal exactly when the hand holds more than one copy
of that kind (the count array counts the red copy too); in particular the
black tile and the red alias are never both reported unless more than one copy
is held. -/
theorem claim_C4_red_five_normalization (s : PlayerState) (r : Fin 37 → Bool)
    (b rd : Fin 37) (bi : Fin 34) (a : Fin 3)
    (htriple : b = 4 ∧ rd = 34 ∧ bi = 4 ∧ a = 0 ∨
      b = 13 ∧ rd = 35 ∧ bi = 13 ∧ a = 1 ∨
      b = 22 ∧ rd = 36 ∧ bi = 22 ∧ a = 2)
    (hr : s.discard_candidates_aka = some r)
    (hnr : s.riichi_accepted 0 = false)
    (haka : s.akas_in_hand a = true)
    (hbase : discardBase s b = true) :
    r rd = true ∧ (r b = true ↔ 1 < s.tehai bi) ∧
      (r b = true → r rd = true → 1 < s.tehai bi) := by
  unfold PlayerState.discard_candidates_aka at hr
  split at hr
  · exact Option.noConfusion hr
  next hcd =>
    rw [if_neg (by simp [hnr])] at hr
    injection hr with hre
    rcases htriple with ⟨hb, hrd, hbi, ha⟩ | ⟨hb, hrd, hbi, ha⟩ |
        ⟨hb, hrd, hbi, ha⟩ <;> subst hb <;> subst hrd <;> subst hbi <;>
      subst ha
    · have hred : akaFix s.tehai s.akas_in_hand (discardBase s) 34 = true := by
        rw [akaFix_apply, if_neg (by decide : ¬(34 : Fin 37) = 4), if_pos rfl,
          discardBase_red s 34 (by decide), hbase, haka]
        rfl
      have hiff : akaFix s.tehai s.akas_in_hand (discardBase s) 4 = true ↔
          1 < s.tehai 4 := by
        rw [akaFix_apply, if_pos rfl, hbase, haka]
        simp
      rw [← hre]
      exact ⟨hred, hiff, fun h1 _ => hiff.mp h1⟩
    · have hred : akaFix s.tehai s.akas_in_hand (discardBase s) 35 = true := by
        rw [akaFix_apply, if_neg (by decide : ¬(35 : Fin 37) = 4),
          if_neg (by decide : ¬(35 : Fin 37) = 34),
          if_neg (by decide : ¬(35 : Fin 37) = 13), if_pos rfl,
          discardBase_red s 35 (by decide), hbase, haka]
        rfl
      have hiff : akaFix s.tehai s.akas_in_hand (discardBase s) 13 = true ↔
          1 < s.tehai 13 := by
        rw [akaFix_apply, if_neg (by decide : ¬(13 : Fin 37) = 4),
          if_neg (by decide : ¬(13 : Fin 37) = 34), if_pos rfl, hbase, haka]
        simp
      rw [← hre]
      exact ⟨hred, hiff, fun h1 _ => hiff.mp h1⟩
    · have hred : akaFix s.tehai s.akas_in_hand (discardBase s) 36 = true := by
        rw [akaFix_apply, if_neg (by decide : ¬(36 : Fin 37) = 4),
          if_neg (by decide : ¬(36 : Fin 37) = 34),
          if_neg (by decide : ¬(36 : Fin 37) = 13),
          if_neg (by decide : ¬(36 : Fin 37) = 35),
          if_neg (by decide : ¬(36 : Fin 37) = 22), if_pos rfl,
          discardBase_red s 36 (by decide), hbase, haka]
        rfl
      have hiff : akaFix s.tehai s.akas_in_hand (discardBase s) 22 = true ↔
          1 < s.tehai 22 := by
        rw [akaFix_apply, if_neg (by decide : ¬(22 : Fin 37) = 4),
          if_neg (by decide : ¬(22 : Fin 37) = 34),
          if_neg (by decide : ¬(22 : Fin 37) = 13),
          if_neg (by decide : ¬(22 : Fin 37) = 35), if_pos rfl, hbase, haka]
        simp
      rw [← hre]
      exact ⟨hred, hiff, fun h1 _ => hiff.mp h1⟩

/-- Concrete state for the C4 witness: exactly one five of man in hand, and it
is the red one. -/
def c4State : PlayerState :=
  { stateDefault with
    tehai := fun i => if i = 4 then 1 else 0
    akas_in_hand := fun a => decide (a = 0)
    last_cans :=
      { can_discard := true, can_ron_agari := false, can_tsumo_agari := false,
        can_ryukyoku := false, target_actor := 0 } }

def c4r : Fin 37 → Bool :=
  (c4State.discard_candidates_aka).getD (fun _ => false)

theorem claim_C4_red_five_normalization_witness :
    c4r 34 = true ∧ (c4r 4 = true ↔ 1 < c4State.tehai 4) ∧
      (c4r 4 = true → c4r 34 = true → 1 < c4State.tehai 4) :=
  claim_C4_red_five_normalization c4State c4r 4 34 4 0
    (Or.inl ⟨rfl, rfl, rfl, rfl⟩) rfl (by decide) (by decide) (by decide)

/-! ## 4.3 Rule-based ryukyoku policy and 4.6 real-time shanten -/

/-- `PlayerState::yaokyuu_kind_count`: number of distinct terminal/honor kinds
held. -/
def PlayerState.yaokyuu_kind_count (s : PlayerState) : Nat :=
  (([0, 8, 9, 17, 18, 26, 27, 28, 29, 30, 31, 32, 33] : List (Fin 34)).map
    (fun i => min (s.tehai i) 1)).sum

/-- `PlayerState::rule_based_ryukyoku_slow`.  The synthetic haneman-tsumo
score table is built by the two in-place writes into the `-3000 - 300·honba`
filled array, then added pointwise to the current scores
(`vec_add_assign`). -/
def PlayerState.rule_based_ryukyoku_slow (E : Externals) (s : PlayerState) :
    Bool :=
  if E.shantenCalc s.tehai s.tehai_len_div3 ≤ 2 then false
  else if s.bakaze = tileW then true
  else if s.is_all_last = true then
    (if s.oya = 0 ∨ s.rank < 3 then true
     else
       decide (E.getRank (fun i =>
         Function.update
           (Function.update (fun _ : Fin 4 => -3000 - (s.honba : Int) * 300) 0
             (12000 + (s.kyotaku : Int) * 1000 + (s.honba : Int) * 300))
           s.oya (-6000 - (s.honba : Int) * 300) i + s.scores i) < 3))
  else if 10 ≤ s.yaokyuu_kind_count then false
  else if ([27, 28, 29, 30, 31, 32, 33] : List (Fin 34)).all
      (fun i => decide (0 < s.tehai i)) then false
  else true

/-- `PlayerState::rule_based_ryukyoku`. -/
def PlayerState.rule_based_ryukyoku (E : Externals) (s : PlayerState) : Bool :=
  if s.last_cans.can_ryukyoku = false then false
  else s.rule_based_ryukyoku_slow E

/-- `PlayerState::real_time_shanten`. -/
def PlayerState.real_time_shanten (E : Externals) (s : PlayerState) : Int :=
  if s.last_cans.can_discard = false then s.shanten
  else if 0 < s.shanten then
    (if s.has_next_shanten_discard = true then s.shanten - 1 else s.shanten)
  else
    match s.last_self_tsumo with
    | some t => if s.waits (tileDeaka t) = true then -1 else 0
    | none => E.shantenCalc s.tehai s.tehai_len_div3

/-- C5 (amended): in the all-last, non-west, shanten > 2, last-place,
non-dealer scenario, `rule_based_ryukyoku` calls the draw exactly when the
synthetic haneman tsumo (self +12000 +1000·kyotaku +300·honba, dealer
−6000 −300·honba, each other −3000 −300·honba) would make the player's rank
better than last — i.e. when the tsumo would SUFFICE, not when it would be
insufficient as the spec sentence states. -/
theorem claim_C5_all_last_ryukyoku_amended (E : Externals) (s : PlayerState)
    (hcan : s.last_cans.can_ryukyoku = true)
    (hsh : 2 < E.shantenCalc s.tehai s.tehai_len_div3)
    (hw : s.bakaze ≠ tileW)
    (hal : s.is_all_last = true)
    (hoya : s.oya ≠ 0)
    (hrank : ¬s.rank < 3) :
    s.rule_based_ryukyoku E =
      decide (E.getRank (fun i =>
        (if i = 0 then 12000 + (s.kyotaku : Int) * 1000 + (s.honba : Int) * 300
         else if i = s.oya then -6000 - (s.honba : Int) * 300
         else -3000 - (s.honba : Int) * 300) + s.scores i) < 3) := by
  unfold PlayerState.rule_based_ryukyoku PlayerState.rule_based_ryukyoku_slow
  rw [if_neg (by simp [hcan]),
    if_neg (by omega : ¬E.shantenCalc s.tehai s.tehai_len_div3 ≤ 2),
    if_neg hw, if_pos hal, if_neg (fun h => h.elim hoya hrank)]
  have hfun : ∀ i : Fin 4,
      Function.update
        (Function.update (fun _ : Fin 4 => -3000 - (s.honba : Int) * 300) 0
          (12000 + (s.kyotaku : Int) * 1000 + (s.honba : Int) * 300))
        s.oya (-6000 - (s.honba : Int) * 300) i =
      (if i = 0 then 12000 + (s.kyotaku : Int) * 1000 + (s.honba : Int) * 300
       else if i = s.oya then -6000 - (s.honba : Int) * 300
       else -3000 - (s.honba : Int) * 300) := by
    intro i
    rw [Function.update_apply, Function.update_apply]
    by_cases hi : i = s.oya
    · rw [if_pos hi, if_neg (show ¬i = 0 by rw [hi]; exact hoya), if_pos hi]
    · rw [if_neg hi]
      by_cases hi0 : i = 0
      · rw [if_pos hi0, if_pos hi0]
      · rw [if_neg hi0, if_neg hi0, if_neg hi]
  simp only [hfun]

/-- Concrete scenario for C5: last place, not dealer, all-last, shanten > 2,
and the synthetic haneman tsumo WOULD lift the player out of last place. -/
def c5State : PlayerState :=
  { stateDefault with
    scores := fun i => if i = 0 then 20000 else if i = 1 then 30000 else 25000
    rank := 3
    oya := 1
    is_all_last := true
    shanten := 6
    last_cans :=
      { can_discard := false, can_ron_agari := false, can_tsumo_agari := false,
        can_ryukyoku := true, target_actor := 0 } }

def c5Ext : Externals := { extDefault with shantenCalc := fun _ _ => 6 }

/-- C5 counterexample to the claim as stated: all of the claim's scenario
conditions hold, the synthetic haneman tsumo WOULD let the player escape last
place (post-tsumo rank 0 < 3, i.e. it is not "insufficient"), and yet
`rule_based_ryukyoku` calls the draw — the claim's direction ("calls a draw
only if the tsumo would be insufficient") is the opposite of the code's. -/
theorem claim_C5_counterexample :
    2 < c5Ext.shantenCalc c5State.tehai c5State.tehai_len_div3 ∧
      c5State.bakaze ≠ tileW ∧
      c5State.is_all_last = true ∧
      c5State.oya ≠ 0 ∧
      ¬c5State.rank < 3 ∧
      c5State.last_cans.can_ryukyoku = true ∧
      c5Ext.getRank (fun i =>
        (if i = 0 then
          12000 + (c5State.kyotaku : Int) * 1000 + (c5State.honba : Int) * 300
         else if i = c5State.oya then -6000 - (c5State.honba : Int) * 300
         else -3000 - (c5State.honba : Int) * 300) + c5State.scores i) < 3 ∧
      c5State.rule_based_ryukyoku c5Ext = true := by
  decide

theorem claim_C5_all_last_ryukyoku_amended_witness :
    c5State.rule_based_ryukyoku c5Ext =
      decide (c5Ext.getRank (fun i =>
        (if i = 0 then
          12000 + (c5State.kyotaku : Int) * 1000 + (c5State.honba : Int) * 300
         else if i = c5State.oya then -6000 - (c5State.honba : Int) * 300
         else -3000 - (c5State.honba : Int) * 300) + c5State.scores i) < 3) :=
  claim_C5_all_last_ryukyoku_amended c5Ext c5State (by decide) (by decide)
    (by decide) (by decide) (by decide) (by decide)

/-- C7: whenever the cached state is consistent with the shanten primitive
(the spec's cache invariant, maintained outside this core) and the real-time
shanten is at most 2, `rule_based_ryukyoku` is `false` — for every round,
score, rank and tile combination. -/
theorem claim_C7_no_ryukyoku_when_close (E : Externals) (s : PlayerState)
    (hcons : E.shantenCalc s.tehai s.tehai_len_div3 = s.real_time_shanten E)
    (hle : s.real_time_shanten E ≤ 2) :
    s.rule_based_ryukyoku E = false := by
  unfold PlayerState.rule_based_ryukyoku
  by_cases hcan : s.last_cans.can_ryukyoku = false
  · rw [if_pos hcan]
  · rw [if_neg hcan]
    unfold PlayerState.rule_based_ryukyoku_slow
    rw [if_pos (by omega : E.shantenCalc s.tehai s.tehai_len_div3 ≤ 2)]

def c7State : PlayerState :=
  { stateDefault with
    shanten := 2
    last_cans :=
      { can_discard := false, can_ron_agari := false, can_tsumo_agari := false,
        can_ryukyoku := true, target_actor := 0 } }

def c7Ext : Externals := { extDefault with shantenCalc := fun _ _ => 2 }

theorem claim_C7_no_ryukyoku_when_close_witness :
    c7State.rule_based_ryukyoku c7Ext = false :=
  claim_C7_no_ryukyoku_when_close c7Ext c7State (by decide) (by decide)

/-- C8: `real_time_shanten` against the shanten primitive: (a) at 3n+1 it
returns the cached value, hence the primitive's value whenever the cache is
accurate (the spec asserts it is); (b) at a 3n+2 point with cached shanten 0
after a claimed meld (no self-drawn tile) it recomputes exactly via the
primitive; (c) at a 3n+2 tenpai point after a self-draw it returns −1 exactly
when the drawn tile's basic kind is in `waits`, else 0. -/
theorem claim_C8_real_time_shanten_consistency (E : Externals)
    (s : PlayerState) :
    (s.last_cans.can_discard = false → s.real_time_shanten E = s.shanten) ∧
      (s.last_cans.can_discard = false →
        s.shanten = E.shantenCalc s.tehai s.tehai_len_div3 →
        s.real_time_shanten E = E.shantenCalc s.tehai s.tehai_len_div3) ∧
      (s.last_cans.can_discard = true → s.shanten = 0 →
        s.last_self_tsumo = none →
        s.real_time_shanten E = E.shantenCalc s.tehai s.tehai_len_div3) ∧
      (∀ t : TileId, s.last_cans.can_discard = true → s.shanten = 0 →
        s.last_self_tsumo = some t →
        s.real_time_shanten E =
          if s.waits (tileDeaka t) = true then -1 else 0) := by
  refine ⟨?_, ?_, ?_, ?_⟩
  · intro h
    unfold PlayerState.real_time_shanten
    rw [if_pos h]
  · intro h hacc
    unfold PlayerState.real_time_shanten
    rw [if_pos h, hacc]
  · intro hcd hsh hnone
    unfold PlayerState.real_time_shanten
    rw [if_neg (by simp [hcd]), if_neg (by omega : ¬0 < s.shanten), hnone]
  · intro t hcd hsh hsome
    unfold PlayerState.real_time_shanten
    rw [if_neg (by simp [hcd]), if_neg (by omega : ¬0 < s.shanten), hsome]

def c8State : PlayerState :=
  { stateDefault with
    shanten := 0
    last_cans :=
      { can_discard := true, can_ron_agari := false, can_tsumo_agari := false,
        can_ryukyoku := false, target_actor := 0 } }

theorem claim_C8_real_time_shanten_consistency_witness :
    c8State.real_time_shanten extDefault =
      extDefault.shantenCalc c8State.tehai c8State.tehai_len_div3 :=
  (claim_C8_real_time_shanten_consistency extDefault c8State).2.2.1 rfl rfl rfl

/-! ## 4.5 Point calculator -/

/-- The tail of `agari_points`: delegate to the external hand evaluator and
convert (`agari_calc.agari(..).context("not a hora hand")` followed by
`agari.point(self.oya == 0)`). -/
def agariFinish (E : Externals) (oya0 : Bool) (input : AgariCalculator)
    (additional_hans final_doras_owned : Nat) : Except String Point :=
  match E.agariFn input additional_hans final_doras_owned with
  | none => .error "not a hora hand"
  | some a => .ok (a.point oya0)

lemma agariFinish_ne_cannot (E : Externals) (oya0 : Bool)
    (input : AgariCalculator) (ah fd : Nat) :
    agariFinish E oya0 input ah fd ≠ .error "cannot agari" := by
  unfold agariFinish
  split
  · intro h
    injection h with hs
    exact absurd hs (by decide)
  · intro h
    injection h

/-- `PlayerState::agari_points`.  Errors render the `ensure!`/`context`
failure paths; the two first-uninterrupted-draw yakuman are special-cased
through the external `Point::yakuman` constructor. -/
def PlayerState.agari_points (E : Externals) (s : PlayerState) (is_ron : Bool)
    (ura_indicators : List TileId) : Except String Point :=
  if ¬(is_ron = true ∧ s.last_cans.can_ron_agari = true ∨
      s.last_cans.can_tsumo_agari = true) then
    .error "cannot agari"
  else if is_ron = false ∧ s.can_w_riichi = true then
    .ok (E.yakumanFn (s.oya = 0) 1)
  else
    match (if is_ron = true then s.last_kawa_tile else s.last_self_tsumo) with
    | none => .error "cannot find the winning tile"
    | some winning_tile =>
      let additional_hans : Nat :=
        if is_ron = true then
          (List.filter (fun b => b)
            [s.riichi_accepted 0, s.is_w_riichi, s.at_ippatsu,
              decide (s.tiles_left = 0), s.chankan_chance.isSome]).length
        else
          (List.filter (fun b => b)
            [s.riichi_accepted 0, s.is_w_riichi, s.at_ippatsu, s.is_menzen,
              decide (s.tiles_left = 0) && !s.at_rinshan, s.at_rinshan]).length
      let tid := tileDeaka winning_tile
      let tehai1 :=
        if is_ron = true then Function.update s.tehai tid (s.tehai tid + 1)
        else s.tehai
      let doras1 :=
        if is_ron = true then
          s.doras_owned + s.dora_factor tid +
            (if tileIsAka winning_tile = true then 1 else 0)
        else s.doras_owned
      let final_doras_owned :=
        if s.riichi_accepted 0 = true then
          doras1 + (ura_indicators.map (fun ura =>
            tehai1 (tileNext ura) +
              (if tileNext ura ∈ s.ankan_overview then 4 else 0))).sum
        else doras1
      agariFinish E (s.oya = 0)
        { tehai := tehai1, is_menzen := s.is_menzen, chis := s.chis,
          pons := s.pons, minkans := s.minkans, ankans := s.ankans,
          bakaze := (s.bakaze : Nat), jikaze := (s.jikaze : Nat),
          winning_tile := ((tileDeaka winning_tile : Fin 34) : Nat),
          is_ron := is_ron }
        additional_hans final_doras_owned

/-- C10: `agari_points` raises its initial "cannot agari" error exactly when
both `is_ron && can_ron_agari` and `can_tsumo_agari` are false — the guard is
`(is_ron && can_ron_agari) || can_tsumo_agari`, so whenever `can_tsumo_agari`
holds, a call with `is_ron = true` passes the legality check even if
`can_ron_agari` is false. -/
theorem claim_C10_agari_points_guard (E : Externals) (s : PlayerState)
    (is_ron : Bool) (ura_indicators : List TileId) :
    (s.agari_points E is_ron ura_indicators = .error "cannot agari" ↔
      ¬(is_ron = true ∧ s.last_cans.can_ron_agari = true ∨
        s.last_cans.can_tsumo_agari = true)) ∧
      (s.last_cans.can_tsumo_agari = true →
        s.agari_points E true ura_indicators ≠ .error "cannot agari") := by
  have hmain : ∀ b : Bool,
      (s.agari_points E b ura_indicators = .error "cannot agari" ↔
        ¬(b = true ∧ s.last_cans.can_ron_agari = true ∨
          s.last_cans.can_tsumo_agari = true)) := by
    intro b
    unfold PlayerState.agari_points
    by_cases hg : ¬(b = true ∧ s.last_cans.can_ron_agari = true ∨
        s.last_cans.can_tsumo_agari = true)
    · rw [if_pos hg]
      exact ⟨fun _ => hg, fun _ => rfl⟩
    · rw [if_neg hg]
      constructor
      · intro h
        exfalso
        by_cases hw : b = false ∧ s.can_w_riichi = true
        · rw [if_pos hw] at h
          injection h
        · rw [if_neg hw] at h
          split at h
          · injection h with hs
            exact absurd hs (by decide)
          · exact absurd h (agariFinish_ne_cannot _ _ _ _ _)
      · intro h
        exact absurd h hg
  refine ⟨hmain is_ron, fun hts h => ?_⟩
  have := (hmain true).mp h
  exact this (Or.inr hts)

/-! ## 4.4 Rule-based agari policy -/

/-- Insertion step of the descending-count sort. -/
def insertDesc (cnt : Fin 34 → Nat) (x : Fin 34) :
    List (Fin 34) → List (Fin 34)
  | [] => [x]
  | y :: ys => if cnt y < cnt x then x :: y :: ys else y :: insertDesc cnt x ys

/-- Deterministic rendering of `sort_unstable_by` with the descending-count
comparator (the source leaves the order of equal-count kinds unspecified). -/
def sortByCountDesc (cnt : Fin 34 → Nat) : List (Fin 34) → List (Fin 34)
  | [] => []
  | x :: xs => insertDesc cnt x (sortByCountDesc cnt xs)

/-- The inner `loop` of the greedy uradora assignment: starting from
`len` chosen indicators and `seen` visible copies of the current indicator,
push copies until either the indicator budget `L` is reached (stop the whole
scan, `true`) or the indicator is fully visible (move to the next kind,
`false`).  Returns the number of copies pushed; the fuel argument is called
with `L + 1`, which bounds the pushes. -/
def uraInnerLoop (L : Nat) : Nat → Nat → Nat → Nat × Bool
  | 0, _, _ => (0, false)
  | fuel + 1, len, seen =>
    if L ≤ len then (0, true)
    else if 4 ≤ seen then (0, false)
    else
      let pr := uraInnerLoop L fuel (len + 1) (seen + 1)
      (pr.1 + 1, pr.2)

/-- The greedy best-case uradora-indicator assignment of
`rule_based_agari_slow`: count the hand plus fourfold concealed kans, walk the
kinds in descending count order and, for each, push its indicator while not
fully visible, up to `dora_indicators.len()` indicators. -/
def uraGreedy (s : PlayerState) : List TileId :=
  let tehaiFull := s.ankan_overview.foldl
    (fun th t => Function.update th t (th t + 4)) s.tehai
  let ordered := sortByCountDesc tehaiFull
    ((List.finRange 34).filter (fun i => decide (0 < tehaiFull i)))
  let L := s.dora_indicators.length
  (ordered.foldl (fun st t =>
      if st.2.2 = true then st
      else
        let u := tilePrev (emb t)
        let pr := uraInnerLoop L (L + 1) st.1.length (st.2.1 u)
        (st.1 ++ List.replicate pr.1 (emb u),
          Function.update st.2.1 u (st.2.1 u + pr.1), pr.2))
    (([] : List TileId), s.tiles_seen, false)).1

/-- The post-win score table of `rule_based_agari_slow`: the two sequential
in-place writes for a ron, or the `skip(1)` loop over the three opponents for
a tsumo. -/
def agariExpScores (s : PlayerState) (p : Point) (is_ron : Bool)
    (target_rel : Fin 4) : Fin 4 → Int :=
  if is_ron = true then
    Function.update
      (Function.update s.scores 0
        (s.scores 0 + p.ron + (s.kyotaku : Int) * 1000 + (s.honba : Int) * 300))
      target_rel
      (Function.update s.scores 0
        (s.scores 0 + p.ron + (s.kyotaku : Int) * 1000 +
          (s.honba : Int) * 300) target_rel - (p.ron + (s.honba : Int) * 300))
  else
    ([1, 2, 3] : List (Fin 4)).foldl
      (fun e idx => Function.update e idx
        (e idx - (if idx = s.oya then p.tsumo_oya + (s.honba : Int) * 100
                  else p.tsumo_ko + (s.honba : Int) * 100)))
      (Function.update s.scores 0
        (s.scores 0 + p.tsumo_total false + (s.kyotaku : Int) * 1000 +
          (s.honba : Int) * 300))

/-- The part of `rule_based_agari_slow` after the early sufficient checks:
compute the best-case points (with the greedy uradora assignment under an
accepted riichi), apply the score delta, and accept when every score stays
below 30000 or the post-win rank beats last place.  `none` renders the
`unwrap` panic on a failing point computation. -/
def agariDeepCheck (E : Externals) (s : PlayerState) (is_ron : Bool)
    (target_rel : Fin 4) : Option Bool :=
  match (if s.riichi_accepted 0 = true then
      s.agari_points E is_ron (uraGreedy s)
    else s.agari_points E is_ron []) with
  | .error _ => none
  | .ok p =>
    if ∀ i, agariExpScores s p is_ron target_rel i < 30000 then some true
    else some (decide (E.getRank (agariExpScores s p is_ron target_rel) < 3))

/-- `PlayerState::rule_based_agari_slow`. -/
def PlayerState.rule_based_agari_slow (E : Externals) (s : PlayerState)
    (is_ron : Bool) (target_rel : Fin 4) : Option Bool :=
  if ¬s.is_all_last = true ∨ s.oya = 0 ∨ s.rank < 3 then some true
  else if s.bakaze = tileW then
    (if s.kyoku < 3 then some true
     else agariDeepCheck E s is_ron target_rel)
  else if ∀ i, s.scores i < 30000 then some true
  else agariDeepCheck E s is_ron target_rel

/-- `PlayerState::rule_based_agari`. -/
def PlayerState.rule_based_agari (E : Externals) (s : PlayerState) :
    Option Bool :=
  if s.last_cans.can_agari = false then some false
  else s.rule_based_agari_slow E s.last_cans.can_ron_agari
    (s.rel s.last_cans.target_actor)

/-- The claim's description of the post-win score table (the spec side of the
refinement): ron — the winner gains the ron value plus 1000 per kyotaku plus
300 per honba while the discarder loses the ron value plus 300 per honba;
tsumo — the winner collects from all three opponents with the dealer /
non-dealer split plus 100 per honba each. -/
def specExpectedScores (s : PlayerState) (p : Point) (is_ron : Bool)
    (target_rel : Fin 4) : Fin 4 → Int :=
  fun i =>
    if is_ron = true then
      (if i = 0 then
        s.scores 0 + p.ron + (s.kyotaku : Int) * 1000 + (s.honba : Int) * 300
       else if i = target_rel then
        s.scores i - (p.ron + (s.honba : Int) * 300)
       else s.scores i)
    else
      (if i = 0 then
        s.scores 0 + p.tsumo_total false + (s.kyotaku : Int) * 1000 +
          (s.honba : Int) * 300
       else if i = s.oya then s.scores i - (p.tsumo_oya + (s.honba : Int) * 100)
       else s.scores i - (p.tsumo_ko + (s.honba : Int) * 100))

/-- The code's in-place score updates agree pointwise with the claim's
description, given that the player is not the dealer and a ron target is
never the player. -/
lemma agariExpScores_eq_spec (s : PlayerState) (p : Point) (is_ron : Bool)
    (target_rel : Fin 4)
    (htr : is_ron = true → target_rel ≠ 0) :
    agariExpScores s p is_ron target_rel =
      specExpectedScores s p is_ron target_rel := by
  funext i
  unfold agariExpScores specExpectedScores
  by_cases hr : is_ron = true
  · rw [if_pos hr, if_pos hr]
    have htr0 := htr hr
    rw [Function.update_apply]
    by_cases hit : i = target_rel
    · rw [if_pos hit, Function.update_apply, if_neg htr0,
        if_neg (show ¬i = 0 by rw [hit]; exact htr0), if_pos hit, hit]
    · rw [if_neg hit, Function.update_apply]
      by_cases hi0 : i = 0
      · rw [if_pos hi0, if_pos hi0]
      · rw [if_neg hi0, if_neg hi0, if_neg hit]
  · rw [if_neg hr, if_neg hr]
    simp only [List.foldl_cons, List.foldl_nil]
    rw [Function.update_apply]
    by_cases hi3 : i = 3
    · rw [if_pos hi3, Function.update_apply,
        if_neg (by decide : ¬(3 : Fin 4) = 2), Function.update_apply,
        if_neg (by decide : ¬(3 : Fin 4) = 1), Function.update_apply,
        if_neg (by decide : ¬(3 : Fin 4) = 0),
        if_neg (show ¬i = 0 by rw [hi3]; decide), hi3]
      by_cases ho : (3 : Fin 4) = s.oya
      · rw [if_pos ho, if_pos ho]
      · rw [if_neg ho, if_neg ho]
    · rw [if_neg hi3, Function.update_apply]
      by_cases hi2 : i = 2
      · rw [if_pos hi2, Function.update_apply,
          if_neg (by decide : ¬(2 : Fin 4) = 1), Function.update_apply,
          if_neg (by decide : ¬(2 : Fin 4) = 0),
          if_neg (show ¬i = 0 by rw [hi2]; decide), hi2]
        by_cases ho : (2 : Fin 4) = s.oya
        · rw [if_pos ho, if_pos ho]
        · rw [if_neg ho, if_neg ho]
      · rw [if_neg hi2, Function.update_apply]
        by_cases hi1 : i = 1
        · rw [if_pos hi1, Function.update_apply,
            if_neg (by decide : ¬(1 : Fin 4) = 0),
            if_neg (show ¬i = 0 by rw [hi1]; decide), hi1]
          by_cases ho : (1 : Fin 4) = s.oya
          · rw [if_pos ho, if_pos ho]
          · rw [if_neg ho, if_neg ho]
        · have hv3 : (i : Nat) ≠ 3 := fun h => hi3 (Fin.ext (by rw [h]; rfl))
          have hv2 : (i : Nat) ≠ 2 := fun h => hi2 (Fin.ext (by rw [h]; rfl))
          have hv1 : (i : Nat) ≠ 1 := fun h => hi1 (Fin.ext (by rw [h]; rfl))
          have hi0 : i = 0 := Fin.ext (by have := i.isLt; omega)
          rw [hi0, if_neg (by decide : ¬(0 : Fin 4) = 1),
            Function.update_apply, if_pos rfl, if_pos rfl]

/-- C6: in the all-last / not-dealer / last-place scenario with neither early
sufficient condition of step 2 firing, when the best-case point computation
succeeds with `p`, `rule_based_agari` applies the claim's score delta (ron:
winner gains the ron value plus 1000·kyotaku plus 300·honba, the discarder
loses the ron value plus 300·honba; tsumo: collect from the three opponents
with the dealer/non-dealer split plus 100·honba each) and returns `true`
exactly when every resulting score is below 30000 or the post-win rank beats
last place. -/
theorem claim_C6_agari_scenario (E : Externals) (s : PlayerState) (p : Point)
    (hcan : s.last_cans.can_agari = true)
    (hal : s.is_all_last = true)
    (hoya : s.oya ≠ 0)
    (hrank : ¬s.rank < 3)
    (hw1 : ¬(s.bakaze = tileW ∧ s.kyoku < 3))
    (hw2 : s.bakaze = tileW ∨ ¬∀ i, s.scores i < 30000)
    (hp : (if s.riichi_accepted 0 = true then
        s.agari_points E s.last_cans.can_ron_agari (uraGreedy s)
      else s.agari_points E s.last_cans.can_ron_agari []) = .ok p)
    (htr : s.last_cans.can_ron_agari = true →
      s.rel s.last_cans.target_actor ≠ 0) :
    s.rule_based_agari E = some (decide
      ((∀ i, specExpectedScores s p s.last_cans.can_ron_agari
          (s.rel s.last_cans.target_actor) i < 30000) ∨
        E.getRank (specExpectedScores s p s.last_cans.can_ron_agari
          (s.rel s.last_cans.target_actor)) < 3)) := by
  have hexpf := agariExpScores_eq_spec s p s.last_cans.can_ron_agari
    (s.rel s.last_cans.target_actor) htr
  have hrest : agariDeepCheck E s s.last_cans.can_ron_agari
      (s.rel s.last_cans.target_actor) = some (decide
      ((∀ i, specExpectedScores s p s.last_cans.can_ron_agari
          (s.rel s.last_cans.target_actor) i < 30000) ∨
        E.getRank (specExpectedScores s p s.last_cans.can_ron_agari
          (s.rel s.last_cans.target_actor)) < 3)) := by
    unfold agariDeepCheck
    split
    next e heq =>
      rw [hp] at heq
      injection heq
    next p2 heq =>
      rw [hp] at heq
      have hp2 : p = p2 := Except.ok.inj heq
      subst hp2
      rw [hexpf]
      by_cases hall : ∀ i, specExpectedScores s p s.last_cans.can_ron_agari
          (s.rel s.last_cans.target_actor) i < 30000
      · rw [if_pos hall]
        simp [hall]
      · rw [if_neg hall]
        simp [hall]
  unfold PlayerState.rule_based_agari
  rw [if_neg (by simp [hcan])]
  unfold PlayerState.rule_based_agari_slow
  rw [if_neg (fun h => h.elim (fun h1 => h1 hal)
    (fun h2 => h2.elim hoya hrank))]
  by_cases hb : s.bakaze = tileW
  · rw [if_pos hb, if_neg (fun hk => hw1 ⟨hb, hk⟩)]
    exact hrest
  · rw [if_neg hb, if_neg (hw2.resolve_left hb)]
    exact hrest

/-- Concrete scenario for the C6 witness: last place at all-last, tsumo win
available, fixed external evaluator. -/
def c6State : PlayerState :=
  { stateDefault with
    is_all_last := true
    oya := 1
    rank := 3
    scores := fun i => if i = 0 then 25000 else if i = 3 then 30000 else 26000
    last_self_tsumo := some 0
    last_cans :=
      { can_discard := false, can_ron_agari := false, can_tsumo_agari := true,
        can_ryukyoku := false, target_actor := 0 } }

def c6p : Point := ⟨8000, 4000, 2000⟩

def c6Ext : Externals :=
  { extDefault with agariFn := fun _ _ _ => some ⟨fun _ => c6p⟩ }

theorem claim_C6_agari_scenario_witness :
    c6State.rule_based_agari c6Ext = some (decide
      ((∀ i, specExpectedScores c6State c6p c6State.last_cans.can_ron_agari
          (c6State.rel c6State.last_cans.target_actor) i < 30000) ∨
        c6Ext.getRank (specExpectedScores c6State c6p
          c6State.last_cans.can_ron_agari
          (c6State.rel c6State.last_cans.target_actor)) < 3)) :=
  claim_C6_agari_scenario c6Ext c6State c6p (by decide) (by decide) (by decide)
    (by decide) (by decide) (by decide) rfl (by decide)

/-- Concrete state for the C10 witness: tsumo is legal, ron is not. -/
def c10State : PlayerState :=
  { stateDefault with
    last_self_tsumo := some 0
    last_cans :=
      { can_discard := false, can_ron_agari := false, can_tsumo_agari := true,
        can_ryukyoku := false, target_actor := 0 } }

theorem claim_C10_agari_points_guard_witness :
    c10State.agari_points extDefault true [] ≠ .error "cannot agari" :=
  (claim_C10_agari_points_guard extDefault c10State true []).2 rfl

/-! ## 4.7 Single-player EV table builder -/

/-- The delegation tail of `single_player_tables`: build the config and the
init state, run the external search, and — in the forced
discard-after-riichi case (`relabel = some lt`) — relabel the first entry
with the actually drawn tile (`none` renders the `max_ev_table[0]` panic on
an empty table). -/
def spTablesRun (E : Externals) (s : PlayerState) (tehaiB : Fin 34 → Nat)
    (akasB : Fin 3 → Bool) (canDiscardB : Bool) (relabel : Option TileId) :
    Option SinglePlayerTables :=
  match E.spCalc
      { tehai_len_div3 := s.tehai_len_div3, is_menzen := s.is_menzen,
        chis := s.chis, pons := s.pons, minkans := s.minkans,
        ankans := s.ankans, bakaze := (s.bakaze : Nat),
        jikaze := (s.jikaze : Nat),
        num_doras_in_fuuro :=
          (if s.is_menzen = true ∧ s.ankan_overview = [] then 0
           else s.doras_owned -
             (s.dora_indicators.map (fun ind => s.tehai (tileNext ind))).sum -
             (List.filter (fun b => b)
               [s.akas_in_hand 0, s.akas_in_hand 1, s.akas_in_hand 2]).length),
        prefer_riichi := decide (1000 ≤ s.scores 0),
        dora_indicators := s.dora_indicators,
        calc_double_riichi := s.last_cans.can_discard && s.can_w_riichi,
        calc_haitei :=
          (if s.last_cans.can_discard = true then decide (s.tiles_left % 4 = 0)
           else decide ((s.tiles_left -
             (4 - (s.rel s.last_cans.target_actor : Nat))) % 4 = 0)),
        sort_result := true, maximize_win_prob := false,
        calc_tegawari := false, calc_shanten_down := false }
      { tehai := tehaiB, akas_in_hand := akasB, tiles_seen := s.tiles_seen,
        akas_seen := s.akas_seen }
      canDiscardB
      (if s.last_cans.can_discard = true then s.tiles_left / 4
       else (s.tiles_left - (4 - (s.rel s.last_cans.target_actor : Nat))) / 4)
      (s.real_time_shanten E) with
  | none => none
  | some table =>
    match relabel, table with
    | some lt, e :: rest => some ⟨{ e with tile := lt } :: rest⟩
    | some _, [] => none
    | none, _ => some ⟨table⟩

/-- The riichi adjustment of `single_player_tables`: under an accepted riichi
at a discard point, virtually discard the drawn tile (clearing its red flag)
and force discard-mode off; `none` renders the `unwrap` panic. -/
def spTablesBody (E : Externals) (s : PlayerState) :
    Option SinglePlayerTables :=
  if (s.last_cans.can_discard && s.riichi_accepted 0) = true then
    match s.last_self_tsumo with
    | none => none
    | some lt =>
      spTablesRun E s
        (Function.update s.tehai (tileDeaka lt) (s.tehai (tileDeaka lt) - 1))
        (if lt = 34 then Function.update s.akas_in_hand 0 false
         else if lt = 35 then Function.update s.akas_in_hand 1 false
         else if lt = 36 then Function.update s.akas_in_hand 2 false
         else s.akas_in_hand)
        false (some lt)
  else spTablesRun E s s.tehai s.akas_in_hand s.last_cans.can_discard none

/-- `PlayerState::single_player_tables`: the three `ensure!` guards, then the
delegation. -/
def PlayerState.single_player_tables (E : Externals) (s : PlayerState) :
    Option SinglePlayerTables :=
  if s.tiles_left < 4 then none
  else if s.real_time_shanten E < 0 then none
  else if (if s.last_cans.can_discard = true then s.tiles_left / 4
      else (s.tiles_left - (4 - (s.rel s.last_cans.target_actor : Nat))) / 4)
      < 1 then none
  else spTablesBody E s

lemma spTablesRun_ne_none (E : Externals) (s : PlayerState)
    (tehaiB : Fin 34 → Nat) (akasB : Fin 3 → Bool) (canDiscardB : Bool)
    (relabel : Option TileId)
    (hsp : ∀ cfg init cd tl sh, ∃ e rest,
      E.spCalc cfg init cd tl sh = some (e :: rest)) :
    spTablesRun E s tehaiB akasB canDiscardB relabel ≠ none := by
  intro h
  unfold spTablesRun at h
  obtain ⟨e, rest, h2⟩ := hsp _ _ _ _ _
  rw [h2] at h
  rcases relabel with _ | lt
  · simp at h
  · simp at h

lemma spTablesBody_ne_none (E : Externals) (s : PlayerState)
    (hsp : ∀ cfg init cd tl sh, ∃ e rest,
      E.spCalc cfg init cd tl sh = some (e :: rest))
    (hts : s.last_cans.can_discard = true → s.riichi_accepted 0 = true →
      s.last_self_tsumo ≠ none) :
    spTablesBody E s ≠ none := by
  unfold spTablesBody
  by_cases hdar : (s.last_cans.can_discard && s.riichi_accepted 0) = true
  · rw [if_pos hdar]
    have hcd := ((Bool.and_eq_true _ _).mp hdar).1
    have hra := ((Bool.and_eq_true _ _).mp hdar).2
    rcases hlt : s.last_self_tsumo with _ | lt
    · exact absurd hlt (hts hcd hra)
    · exact spTablesRun_ne_none E s _ _ _ _ hsp
  · rw [if_neg hdar]
    exact spTablesRun_ne_none E s _ _ _ _ hsp

/-- C9 (amended): provided the delegated EV search succeeds with a nonempty
table and a forced post-riichi discard point always has its drawn tile,
`single_player_tables` fails exactly when fewer than one self-draw remains
(`tiles_left < 4`, or — at a non-discard point — fewer than 4 tiles after
discounting the opponents seated before the next self-draw) or the resolved
real-time shanten is negative.  (The claim as stated omits the propagated
failure of the delegated search itself — see the counterexample.) -/
theorem claim_C9_failure_conditions_amended (E : Externals) (s : PlayerState)
    (hsp : ∀ cfg init cd tl sh, ∃ e rest,
      E.spCalc cfg init cd tl sh = some (e :: rest))
    (hts : s.last_cans.can_discard = true → s.riichi_accepted 0 = true →
      s.last_self_tsumo ≠ none) :
    s.single_player_tables E = none ↔
      s.tiles_left < 4 ∨
        (if s.last_cans.can_discard = true then s.tiles_left / 4
         else (s.tiles_left - (4 - (s.rel s.last_cans.target_actor : Nat))) / 4)
          < 1 ∨
        s.real_time_shanten E < 0 := by
  unfold PlayerState.single_player_tables
  by_cases h1 : s.tiles_left < 4
  · rw [if_pos h1]
    simp [h1]
  · rw [if_neg h1]
    by_cases h2 : s.real_time_shanten E < 0
    · rw [if_pos h2]
      simp [h2]
    · rw [if_neg h2]
      by_cases h3 : (if s.last_cans.can_discard = true then s.tiles_left / 4
          else (s.tiles_left -
            (4 - (s.rel s.last_cans.target_actor : Nat))) / 4) < 1
      · rw [if_pos h3]
        simp [h3]
      · rw [if_neg h3]
        constructor
        · intro h
          exact absurd h (spTablesBody_ne_none E s hsp hts)
        · intro h
          rcases h with h | h | h
          · exact absurd h h1
          · exact absurd h h3
          · exact absurd h h2

/-- Concrete state for C9: a discard point with 8 tiles left and real-time
shanten 1 — neither of the claim's two failure situations holds. -/
def c9State : PlayerState :=
  { stateDefault with
    tiles_left := 8
    shanten := 1
    has_next_shanten_discard := false
    last_cans :=
      { can_discard := true, can_ron_agari := false, can_tsumo_agari := false,
        can_ryukyoku := false, target_actor := 0 } }

/-- C9 counterexample to the claim as stated: with a failing external EV
search (which §6 allows), `single_player_tables` returns a failure although
enough draws remain and the hand is not complete — so the claim's "exactly in
two recoverable situations" is too strong. -/
theorem claim_C9_counterexample :
    c9State.single_player_tables extDefault = none ∧
      ¬c9State.tiles_left < 4 ∧
      ¬(if c9State.last_cans.can_discard = true then c9State.tiles_left / 4
        else (c9State.tiles_left -
          (4 - (c9State.rel c9State.last_cans.target_actor : Nat))) / 4) < 1 ∧
      ¬c9State.real_time_shanten extDefault < 0 := by
  decide

/-- Externals for the C9 witness: an EV search that always succeeds with a
one-entry table. -/
def c9Ext : Externals :=
  { extDefault with spCalc := fun _ _ _ _ _ => some [⟨0, 0⟩] }

theorem claim_C9_failure_conditions_amended_witness :
    c9State.single_player_tables c9Ext = none ↔
      c9State.tiles_left < 4 ∨
        (if c9State.last_cans.can_discard = true then c9State.tiles_left / 4
         else (c9State.tiles_left -
           (4 - (c9State.rel c9State.last_cans.target_actor : Nat))) / 4)
          < 1 ∨
        c9State.real_time_shanten c9Ext < 0 :=
  claim_C9_failure_conditions_amended c9Ext c9State
    (fun _ _ _ _ _ => ⟨⟨0, 0⟩, [], rfl⟩) (by decide)
